import Mathlib

/-!
Verification of the codex_openai_server desktop API server.

We shallowly embed the request gateway (src/main/server.ts), the model
router (getProvider / getModelInfo), the Claude/Codex agent process
runner's timeout logic, and the tunnel manager's stop path, and prove
the specification's claims about them.

JavaScript strings are modelled as Lean `String`s; the few string
operations whose JS semantics matter (first-occurrence `replace`,
`startsWith`, `slice(0,n)`, substring containment) are defined
explicitly on the underlying character lists so that every statement is
decidable on concrete inputs.
-/

set_option maxRecDepth 1000000

namespace CodexServer

/-! ## JS string primitives -/

/-- Substring test: does `l` contain `pat` as a contiguous run
(JS `String.prototype.includes` on character lists)? -/
def containsPat (pat : List Char) : List Char → Bool
  | [] => pat.isEmpty
  | c :: t => pat.isPrefixOf (c :: t) || containsPat pat t

/-- Remove the first occurrence of `pat` (JS `str.replace(pat, '')`
with a string pattern replaces only the first occurrence). -/
def removeFirstAux (pat : List Char) : List Char → List Char
  | [] => []
  | c :: t =>
    if pat.isPrefixOf (c :: t) then (c :: t).drop pat.length
    else c :: removeFirstAux pat t

/-- JS `s.replace(pat, '')`: delete the first occurrence of `pat` in `s`. -/
def jsReplaceFirst (s pat : String) : String :=
  String.mk (removeFirstAux pat.data s.data)

/-- JS `s.startsWith(pat)`. -/
def jsStartsWith (s pat : String) : Bool := pat.data.isPrefixOf s.data

/-- JS `hay.includes(pat)`. -/
def strContains (hay pat : String) : Bool := containsPat pat.data hay.data

/-- JS `s.slice(0, n)`. -/
def jsTake (s : String) (n : Nat) : String := String.mk (s.data.take n)

/-- JS truthiness of a string: non-empty. -/
def strTruthy (s : String) : Bool := !s.data.isEmpty

theorem data_append : ∀ a b : String, (a ++ b).data = a.data ++ b.data
  | ⟨_⟩, ⟨_⟩ => rfl

theorem removeFirstAux_of_not_contains (pat l : List Char)
    (h : containsPat pat l = false) : removeFirstAux pat l = l := by
  induction l with
  | nil => rfl
  | cons c t ih =>
    simp only [containsPat, Bool.or_eq_false_iff] at h
    simp [removeFirstAux, h.1, ih h.2]

theorem containsPat_length (pat l : List Char) (h : containsPat pat l = true) :
    pat.length ≤ l.length := by
  induction l with
  | nil => simp [containsPat, List.isEmpty_iff] at h; simp [h]
  | cons c t ih =>
    simp only [containsPat, Bool.or_eq_true] at h
    rcases h with h | h
    · have := List.isPrefixOf_iff_prefix.mp h
      simpa using this.length_le
    · have := ih h
      simp only [List.length_cons]
      omega

theorem strContains_eq_false_of_length_lt (hay pat : String)
    (h : hay.data.length < pat.data.length) : strContains hay pat = false := by
  cases hc : containsPat pat.data hay.data
  · exact hc
  · exact absurd (containsPat_length _ _ hc) (by omega)

theorem jsReplaceFirst_of_not_contains (s pat : String)
    (h : strContains s pat = false) : jsReplaceFirst s pat = s := by
  unfold jsReplaceFirst
  rw [removeFirstAux_of_not_contains _ _ h]

/-! ## hashKey (server.ts 117-125)

JS `hashKey` folds `hash = ((hash << 5) - hash) + charCode; hash = hash & hash`
over the key in 32-bit signed integer arithmetic, then renders
`'h_' + Math.abs(hash).toString(36)`.  `toInt32` is JS ToInt32 (wrap to
[-2^31, 2^31)); `base36Aux` is `Number.prototype.toString(36)` for
non-negative integers, written with an explicit fuel argument (the fuel
`n` always suffices since the digit count of `n` is at most `n`). -/

def toInt32 (n : Int) : Int := (n + 2 ^ 31) % 2 ^ 32 - 2 ^ 31

def base36Char (n : Nat) : Char :=
  if n < 10 then Char.ofNat (48 + n) else Char.ofNat (87 + n)

def base36Aux : Nat → Nat → List Char
  | 0, n => [base36Char n]
  | fuel + 1, n =>
    if n < 36 then [base36Char n]
    else base36Aux fuel (n / 36) ++ [base36Char (n % 36)]

def natToBase36 (n : Nat) : String := String.mk (base36Aux n n)

def hashKey (key : String) : String :=
  let h := key.data.foldl
    (fun h c => toInt32 (toInt32 (h * 32) - h + (c.toNat : Int))) 0
  "h_" ++ natToBase36 h.natAbs

/-! ## API key records and the auth middleware (server.ts 90-114) -/

/-- A row of the `api_keys` table. -/
structure ApiKeyRecord where
  id : String
  name : String
  keyHash : String
  keyPrefix : String
  scopes : List String
  isActive : Bool
  rateLimit : Option Nat
  expiresAt : Option Nat
  createdAt : Nat
  lastUsedAt : Option Nat
deriving Repr, DecidableEq

inductive AuthOutcome where
  | pass
  | reject (status : Nat) (message : String)
deriving Repr, DecidableEq

/-- `SELECT * FROM api_keys WHERE key_hash = ? AND is_active = 1`
(first matching row).  No condition on `expires_at` appears in the query. -/
def findActiveKey (keys : List ApiKeyRecord) (h : String) : Option ApiKeyRecord :=
  keys.find? (fun r => r.keyHash == h && r.isActive)

/-- The auth middleware: pass through when no master key is configured;
otherwise strip the first occurrence of `"Bearer "` from the
Authorization header, accept if the token equals the master key or its
hash matches an active stored key, and reject with a structured 401
otherwise. -/
def authMiddleware (masterKey : String) (keys : List ApiKeyRecord)
    (authHeader : Option String) : AuthOutcome :=
  if !strTruthy masterKey then .pass
  else
    match authHeader with
    | none => .reject 401 "Missing Authorization header"
    | some header =>
      let token := jsReplaceFirst header "Bearer "
      if token == masterKey then .pass
      else
        match findActiveKey keys (hashKey token) with
        | some _ => .pass
        | none => .reject 401 "Invalid API key"

/-! ## Model router (router half of updater.ts, claude.ts) -/

inductive Provider where
  | codex
  | claude
deriving Repr, DecidableEq

/-- `ClaudeManager.isClaudeModel` (claude.ts). -/
def isClaudeModel (m : String) : Bool :=
  jsStartsWith m "claude" || m == "opus" || m == "sonnet" || m == "haiku"

/-- `getProvider` (router): Claude-family ids go to the claude agent,
everything else to codex. -/
def getProvider (m : String) : Provider :=
  if isClaudeModel m then .claude else .codex

/-- `CLAUDE_MODELS` alias table (claude.ts): id ↦ (cliModel, displayName). -/
def CLAUDE_MODELS : List (String × String × String) :=
  [ ("claude-opus-4", "opus", "Claude Opus 4"),
    ("claude-opus-4-5", "opus", "Claude Opus 4.5"),
    ("claude-opus-4.5", "opus", "Claude Opus 4.5"),
    ("claude-sonnet-4", "sonnet", "Claude Sonnet 4"),
    ("claude-sonnet-4-5", "sonnet", "Claude Sonnet 4.5"),
    ("claude-sonnet-4.5", "sonnet", "Claude Sonnet 4.5"),
    ("claude-haiku", "haiku", "Claude Haiku"),
    ("claude-haiku-3-5", "haiku", "Claude Haiku 3.5"),
    ("opus", "opus", "Claude Opus"),
    ("sonnet", "sonnet", "Claude Sonnet"),
    ("haiku", "haiku", "Claude Haiku") ]

def claudeModelEntry (m : String) : Option (String × String) :=
  (CLAUDE_MODELS.find? (fun e => e.1 == m)).map (·.2)

/-- `ClaudeManager.getCliModel`: alias-table lookup defaulting to sonnet. -/
def getCliModel (m : String) : String :=
  match claudeModelEntry m with
  | some e => e.1
  | none => "sonnet"

/-- `CODEX_MODELS` registry (router): id ↦ displayName. -/
def CODEX_MODELS : List (String × String) :=
  [ ("gpt-5.2-codex", "GPT-5.2 Codex"), ("gpt-5.1-codex", "GPT-5.1 Codex"),
    ("gpt-5.2", "GPT-5.2"), ("gpt-5.1", "GPT-5.1"), ("gpt-5", "GPT-5"),
    ("gpt-4.1", "GPT-4.1"), ("gpt-4.1-mini", "GPT-4.1 Mini"),
    ("gpt-4o", "GPT-4o"), ("gpt-4o-mini", "GPT-4o Mini"),
    ("o3", "O3"), ("o3-mini", "O3 Mini"), ("o4-mini", "O4 Mini"),
    ("o1", "O1"), ("o1-mini", "O1 Mini") ]

def codexModelEntry (m : String) : Option String :=
  (CODEX_MODELS.find? (fun e => e.1 == m)).map (·.2)

structure ModelInfo where
  id : String
  provider : Provider
  cliModel : String
  displayName : String
  owned_by : String
deriving Repr, DecidableEq

/-- `getModelInfo` (router): per-provider registry lookup.  The claude
branch defaults `cliModel` to `"sonnet"` and `displayName` to the id;
the codex branch always uses the id itself as `cliModel` and defaults
only the display name. -/
def getModelInfo (m : String) : ModelInfo :=
  match getProvider m with
  | .claude =>
    { id := m
      provider := .claude
      cliModel := ((claudeModelEntry m).map (·.1)).getD "sonnet"
      displayName := ((claudeModelEntry m).map (·.2)).getD m
      owned_by := "anthropic" }
  | .codex =>
    { id := m
      provider := .codex
      cliModel := m
      displayName := (codexModelEntry m).getD m
      owned_by := "openai" }

/-! ## Responses endpoint (server.ts 180-244) -/

/-- The usage object; `Math.ceil(len / 4)` on naturals is `(len + 3) / 4`. -/
structure Usage where
  input_tokens : Nat
  output_tokens : Nat
  total_tokens : Nat
deriving Repr, DecidableEq

def ceilDiv4 (n : Nat) : Nat := (n + 3) / 4

def mkUsage (promptLen outputLen : Nat) : Usage :=
  { input_tokens := ceilDiv4 promptLen
    output_tokens := ceilDiv4 outputLen
    total_tokens := ceilDiv4 (promptLen + outputLen) }

structure ChatMessage where
  role : String
  content : String
deriving Repr, DecidableEq

/-- The request body's `input` field: absent, a string, or a message array. -/
inductive RequestInput where
  | absent
  | str (s : String)
  | arr (messages : List ChatMessage)
deriving Repr, DecidableEq

/-- JS truthiness of `input` as used by the `if (!input)` guard:
a missing field and the empty string are falsy, every array
(including the empty one) is truthy. -/
def inputTruthy : RequestInput → Bool
  | .absent => false
  | .str s => strTruthy s
  | .arr _ => true

/-- `input.map(m => role + ': ' + content).join('\n')`. -/
def serializeMessages (msgs : List ChatMessage) : String :=
  String.intercalate "\n" (msgs.map (fun m => m.role ++ ": " ++ m.content))

/-- Prompt construction of `POST /v1/responses`: serialize the input,
then prepend truthy instructions with a blank line. -/
def buildPrompt (input : RequestInput) (instructions : Option String) : String :=
  let base :=
    match input with
    | .str s => s
    | .arr msgs => serializeMessages msgs
    | .absent => ""
  match instructions with
  | some i => if strTruthy i then i ++ "\n\n" ++ base else base
  | none => base

/-- A row of the `responses` table (the JSON-serialized `input`/`output`
blobs are kept as structured values). -/
structure StoredResponse where
  id : String
  model : String
  status : String
  input : RequestInput
  output_text : String
  usage : Usage
  createdAt : Nat
deriving Repr, DecidableEq

/-- The JSON payload returned by `POST /v1/responses`. -/
structure RespPayload where
  id : String
  model : String
  status : String
  output_text : Option String
  usage : Option Usage
  error : Option String
  createdAt : Nat
deriving Repr, DecidableEq

inductive HttpResult where
  | json (status : Nat) (payload : RespPayload)
  | errorJson (status : Nat) (message : String)
deriving Repr, DecidableEq

/-- The `POST /v1/responses` handler, parameterized by the outcome of
the (awaited) agent invocation and by the generated response id and
timestamp.  Returns the HTTP result together with the new store. -/
def postResponses (model : String) (input : RequestInput)
    (instructions : Option String) (agentResult : Except String String)
    (responseId : String) (createdAt : Nat) (store : List StoredResponse) :
    HttpResult × List StoredResponse :=
  if !inputTruthy input then
    (.errorJson 400 "input is required", store)
  else
    let prompt := buildPrompt input instructions
    match agentResult with
    | .ok output =>
      let usage := mkUsage prompt.length output.length
      let row : StoredResponse :=
        { id := responseId, model := model, status := "completed"
          input := input, output_text := output, usage := usage
          createdAt := createdAt }
      (.json 200
        { id := responseId, model := model, status := "completed"
          output_text := some output, usage := some usage, error := none
          createdAt := createdAt },
       store ++ [row])
    | .error e =>
      (.json 500
        { id := responseId, model := model, status := "failed"
          output_text := none, usage := none, error := some e
          createdAt := createdAt },
       store)

/-- Usage object of `POST /v1/chat/completions` (same len/4 heuristic,
OpenAI chat field names). -/
structure ChatUsage where
  prompt_tokens : Nat
  completion_tokens : Nat
  total_tokens : Nat
deriving Repr, DecidableEq

def mkChatUsage (promptLen outputLen : Nat) : ChatUsage :=
  { prompt_tokens := ceilDiv4 promptLen
    completion_tokens := ceilDiv4 outputLen
    total_tokens := ceilDiv4 (promptLen + outputLen) }

/-! ## API key lifecycle (server.ts 336-433) -/

/-- Payload of a successful `POST /v1/api-keys` — the only response that
ever carries the plaintext key. -/
structure IssuePayload where
  id : String
  name : String
  key : String
  keyPrefix : String
  scopes : List String
  isActive : Bool
  rateLimit : Option Nat
  expiresAt : Option Nat
  createdAt : Nat
deriving Repr, DecidableEq

/-- The generated plaintext key: `cdx_` + uuid4 hex (32 chars, dashes
stripped) + first 8 chars of a second uuid4 hex.  `r1`, `r2` stand for
the two dash-stripped uuid strings. -/
def mkPlainKey (r1 r2 : String) : String := "cdx_" ++ r1 ++ jsTake r2 8

/-- The `POST /v1/api-keys` success path: build the plaintext key, store
hash + 8-char display precursor, return the plaintext exactly once. -/
def issueApiKey (name keyId r1 r2 : String) (scopes : List String)
    (expiresInDays rateLimit : Option Nat) (createdAt : Nat)
    (keys : List ApiKeyRecord) : IssuePayload × List ApiKeyRecord :=
  let plainKey := mkPlainKey r1 r2
  let keyPrefix := jsTake plainKey 8
  let expiresAt := expiresInDays.map (fun d => createdAt + d * 86400)
  let row : ApiKeyRecord :=
    { id := keyId, name := name, keyHash := hashKey plainKey
      keyPrefix := keyPrefix, scopes := scopes, isActive := true
      rateLimit := rateLimit, expiresAt := expiresAt
      createdAt := createdAt, lastUsedAt := none }
  ({ id := keyId, name := name, key := plainKey, keyPrefix := keyPrefix
     scopes := scopes, isActive := true, rateLimit := rateLimit
     expiresAt := expiresAt, createdAt := createdAt },
   keys ++ [row])

/-- The key field shown by every read endpoint: stored 8-char precursor
followed by an ellipsis. -/
def redactedKey (r : ApiKeyRecord) : String := r.keyPrefix ++ "..."

/-- Payload of `GET /v1/api-keys/:id` and of each element of
`GET /v1/api-keys`. -/
structure KeyReadPayload where
  id : String
  name : String
  key : String
  scopes : List String
  isActive : Bool
  rateLimit : Option Nat
  expiresAt : Option Nat
  createdAt : Nat
  lastUsedAt : Option Nat
deriving Repr, DecidableEq

def keyReadPayload (r : ApiKeyRecord) : KeyReadPayload :=
  { id := r.id, name := r.name, key := redactedKey r, scopes := r.scopes
    isActive := r.isActive, rateLimit := r.rateLimit
    expiresAt := r.expiresAt, createdAt := r.createdAt
    lastUsedAt := r.lastUsedAt }

/-- `GET /v1/api-keys/:id` (`SELECT * FROM api_keys WHERE id = ?`). -/
def getApiKeyById (keys : List ApiKeyRecord) (keyId : String) :
    Option KeyReadPayload :=
  (keys.find? (fun r => r.id == keyId)).map keyReadPayload

/-- `GET /v1/api-keys` (SQL ordering by created_at is abstracted away). -/
def listApiKeys (keys : List ApiKeyRecord) (includeInactive : Bool) :
    List KeyReadPayload :=
  ((if includeInactive then keys else keys.filter (·.isActive)).map
    keyReadPayload)

/-! ## Tunnel manager (tunnel.ts) -/

/-- TunnelManager's mutable fields; the live child process is abstracted
to an opaque handle. -/
structure TunnelState where
  processHandle : Option Nat
  url : Option String
  startedAt : Option Nat
  error : Option String
  port : Nat
deriving Repr, DecidableEq

structure TunnelStatus where
  active : Bool
  url : Option String
  startedAt : Option Nat
  error : Option String
deriving Repr, DecidableEq

/-- `getStatus()` (tunnel.ts 27-34). -/
def TunnelState.getStatus (s : TunnelState) : TunnelStatus :=
  { active := s.processHandle.isSome && s.url.isSome
    url := s.url
    startedAt := s.startedAt
    error := s.error }

/-- `stop()` (tunnel.ts 228-235): SIGTERM the child if one is live, then
clear process, url and startedAt.  The boolean reports whether a kill
signal was sent. -/
def TunnelState.stop (s : TunnelState) : TunnelState × Bool :=
  ({ s with processHandle := none, url := none, startedAt := none },
   s.processHandle.isSome)

/-! ## Process runner timeout race (codex.ts runCommand 491-562, claude.ts runPrompt)

Both runners wire the same promise: a `setTimeout` that kills the child
and rejects with `'Command timeout'` after `timeout` ms, and a `close`
listener that clears the timer and settles by exit code.  We embed the
race explicitly: the child's behaviour is an oracle giving its exit
instant (`none` = never exits); whichever event fires first settles the
promise, and a promise settles at most once. -/

structure ChildBehavior where
  exitAt : Option Nat
  exitCode : Int
  stdout : String
  stderr : String
deriving Repr, DecidableEq

inductive RunOutcome where
  | ok (output : String)
  | err (message : String)
deriving Repr, DecidableEq

structure RunResult where
  outcome : RunOutcome
  settledAt : Nat
  killed : Bool
deriving Repr, DecidableEq

/-- Settlement on the `close` event: resolve stdout on exit code 0,
otherwise reject with stderr (or the exit code when stderr is empty). -/
def closeOutcome (b : ChildBehavior) : RunOutcome :=
  if b.exitCode == 0 then .ok b.stdout
  else .err (if strTruthy b.stderr then b.stderr
             else "Exit code: " ++ toString b.exitCode)

/-- The runner's promise: the child's `close` (if it exits strictly
before the timeout) races the timeout timer, which kills the child. -/
def runCommandModel (timeout : Nat) (b : ChildBehavior) : RunResult :=
  match b.exitAt with
  | some t =>
    if t < timeout then { outcome := closeOutcome b, settledAt := t, killed := false }
    else { outcome := .err "Command timeout", settledAt := timeout, killed := true }
  | none => { outcome := .err "Command timeout", settledAt := timeout, killed := true }

/-! ## Theorems -/

theorem isClaudeModel_iff (m : String) :
    isClaudeModel m = true ↔
      (jsStartsWith m "claude" = true ∨ m = "opus" ∨ m = "sonnet" ∨ m = "haiku") := by
  simp [isClaudeModel, Bool.or_eq_true, beq_iff_eq, or_assoc]

/-- C1: a `POST /v1/responses` request with truthy input whose agent
invocation succeeds with output `t` returns a 200 payload with status
`"completed"` and `output_text = t`, and appends exactly one row to the
responses store carrying the returned id, `t`, and the len/4-ceiling
usage (`ceil(n/4) = (n+3)/4` on naturals). -/
theorem postResponses_success_persists (model : String) (input : RequestInput)
    (instructions : Option String) (t responseId : String) (createdAt : Nat)
    (store : List StoredResponse) (hin : inputTruthy input = true) :
    postResponses model input instructions (.ok t) responseId createdAt store =
      (.json 200
        { id := responseId, model := model, status := "completed"
          output_text := some t
          usage := some (mkUsage (buildPrompt input instructions).length t.length)
          error := none, createdAt := createdAt },
       store ++
        [{ id := responseId, model := model, status := "completed"
           input := input, output_text := t
           usage := mkUsage (buildPrompt input instructions).length t.length
           createdAt := createdAt }]) ∧
    (mkUsage (buildPrompt input instructions).length t.length).input_tokens =
      ((buildPrompt input instructions).length + 3) / 4 ∧
    (mkUsage (buildPrompt input instructions).length t.length).output_tokens =
      (t.length + 3) / 4 := by
  refine ⟨?_, rfl, rfl⟩
  simp [postResponses, hin]

theorem postResponses_success_persists_witness :
    inputTruthy (.str "hello") = true ∧
    (postResponses "gpt-5" (.str "hello") none (.ok "hi") "resp_1" 111 [] =
      (.json 200
        { id := "resp_1", model := "gpt-5", status := "completed"
          output_text := some "hi"
          usage := some (mkUsage (buildPrompt (.str "hello") none).length "hi".length)
          error := none, createdAt := 111 },
       [] ++
        [{ id := "resp_1", model := "gpt-5", status := "completed"
           input := .str "hello", output_text := "hi"
           usage := mkUsage (buildPrompt (.str "hello") none).length "hi".length
           createdAt := 111 }]) ∧
    (mkUsage (buildPrompt (.str "hello") none).length "hi".length).input_tokens =
      ((buildPrompt (.str "hello") none).length + 3) / 4 ∧
    (mkUsage (buildPrompt (.str "hello") none).length "hi".length).output_tokens =
      ("hi".length + 3) / 4) :=
  ⟨by decide,
   postResponses_success_persists "gpt-5" (.str "hello") none "hi" "resp_1" 111 []
     (by decide)⟩

/-- C3: when the agent invocation fails with message `e`, the handler
returns HTTP 500 with status `"failed"` carrying the message, and the
responses store is left unchanged. -/
theorem postResponses_failure_persists_nothing (model : String)
    (input : RequestInput) (instructions : Option String) (e responseId : String)
    (createdAt : Nat) (store : List StoredResponse)
    (hin : inputTruthy input = true) :
    postResponses model input instructions (.error e) responseId createdAt store =
      (.json 500
        { id := responseId, model := model, status := "failed"
          output_text := none, usage := none, error := some e
          createdAt := createdAt },
       store) := by
  simp [postResponses, hin]

theorem postResponses_failure_persists_nothing_witness :
    inputTruthy (.str "hello") = true ∧
    postResponses "gpt-5" (.str "hello") none
        (.error "Codex CLI is not installed") "resp_2" 222
        [{ id := "resp_1", model := "gpt-5", status := "completed"
           input := .str "x", output_text := "y", usage := mkUsage 1 1
           createdAt := 1 }] =
      (.json 500
        { id := "resp_2", model := "gpt-5", status := "failed"
          output_text := none, usage := none
          error := some "Codex CLI is not installed", createdAt := 222 },
       [{ id := "resp_1", model := "gpt-5", status := "completed"
          input := .str "x", output_text := "y", usage := mkUsage 1 1
          createdAt := 1 }]) :=
  ⟨by decide,
   postResponses_failure_persists_nothing "gpt-5" (.str "hello") none
     "Codex CLI is not installed" "resp_2" 222 _ (by decide)⟩

/-- C4: `getProvider` is total on model strings; members of the Claude
identifier family (prefix `claude`, or exactly `opus`/`sonnet`/`haiku`)
route to the claude provider, every other string to codex. -/
theorem getProvider_total_routing (m : String) :
    ((jsStartsWith m "claude" = true ∨ m = "opus" ∨ m = "sonnet" ∨ m = "haiku") →
      getProvider m = .claude) ∧
    (¬(jsStartsWith m "claude" = true ∨ m = "opus" ∨ m = "sonnet" ∨ m = "haiku") →
      getProvider m = .codex) := by
  constructor
  · intro h
    have hc : isClaudeModel m = true := (isClaudeModel_iff m).mpr h
    simp [getProvider, hc]
  · intro h
    have hc : isClaudeModel m = false := by
      cases hcm : isClaudeModel m
      · rfl
      · exact absurd ((isClaudeModel_iff m).mp hcm) h
    simp [getProvider, hc]

theorem getProvider_total_routing_witness :
    getProvider "claude-sonnet-4" = .claude ∧ getProvider "gpt-5" = .codex :=
  ⟨(getProvider_total_routing "claude-sonnet-4").1 (Or.inl (by decide)),
   (getProvider_total_routing "gpt-5").2 (by decide)⟩

/-- C7: if the child has not exited before the wall-clock timeout, the
runner kills it and rejects with the `Command timeout` error, settling
exactly at the timeout instant — it never hangs past it. -/
theorem runCommand_timeout_kills_and_rejects (timeout : Nat)
    (b : ChildBehavior) (h : ∀ t, b.exitAt = some t → timeout ≤ t) :
    runCommandModel timeout b =
      { outcome := .err "Command timeout", settledAt := timeout, killed := true } ∧
    (runCommandModel timeout b).settledAt ≤ timeout := by
  cases hb : b.exitAt with
  | none =>
    unfold runCommandModel
    rw [hb]
    exact ⟨rfl, Nat.le_refl _⟩
  | some t =>
    have ht := h t hb
    have hlt : ¬ t < timeout := by omega
    simp [runCommandModel, hb, hlt]

theorem runCommand_timeout_kills_and_rejects_witness :
    runCommandModel 30000 ⟨none, 0, "", ""⟩ =
      { outcome := .err "Command timeout", settledAt := 30000, killed := true } ∧
    (runCommandModel 30000 ⟨none, 0, "", ""⟩).settledAt ≤ 30000 :=
  runCommand_timeout_kills_and_rejects 30000 ⟨none, 0, "", ""⟩
    (fun _ ht => Option.noConfusion ht)

/-- C8: `stop()` on an already-stopped tunnel manager (no live relay
process) sends no signal, leaves `getStatus()` at
`active = false, url = null`, is idempotent, and — when the cached url
and start time are already cleared — leaves the state bit-identical. -/
theorem tunnelStop_idempotent_noop (s : TunnelState)
    (h : s.processHandle = none) :
    s.stop.2 = false ∧
    s.getStatus.active = false ∧
    s.stop.1.getStatus.active = false ∧
    s.stop.1.getStatus.url = none ∧
    s.stop.1.stop.1 = s.stop.1 ∧
    (s.url = none → s.startedAt = none → s.stop.1 = s) := by
  refine ⟨?_, ?_, ?_, ?_, ?_, ?_⟩
  · simp [TunnelState.stop, h]
  · simp [TunnelState.getStatus, h]
  · simp [TunnelState.stop, TunnelState.getStatus]
  · simp [TunnelState.stop, TunnelState.getStatus]
  · simp [TunnelState.stop]
  · intro h1 h2
    cases s
    simp_all [TunnelState.stop]

theorem tunnelStop_idempotent_noop_witness :
    (TunnelState.stop ⟨none, none, none, none, 8080⟩).2 = false ∧
    (TunnelState.getStatus ⟨none, none, none, none, 8080⟩).active = false ∧
    (TunnelState.stop ⟨none, none, none, none, 8080⟩).1.getStatus.active = false ∧
    (TunnelState.stop ⟨none, none, none, none, 8080⟩).1.getStatus.url = none ∧
    (TunnelState.stop ⟨none, none, none, none, 8080⟩).1.stop.1 =
      (TunnelState.stop ⟨none, none, none, none, 8080⟩).1 ∧
    (TunnelState.stop ⟨none, none, none, none, 8080⟩).1 =
      ⟨none, none, none, none, 8080⟩ := by
  have h := tunnelStop_idempotent_noop ⟨none, none, none, none, 8080⟩ rfl
  exact ⟨h.1, h.2.1, h.2.2.1, h.2.2.2.1, h.2.2.2.2.1, h.2.2.2.2.2 rfl rfl⟩

/-- C10: both usage objects compute
`total_tokens = ceil((promptLen + outputLen)/4)` — `(n+3)/4` on
naturals, characterized as the least `k` with `n ≤ 4k` — and this is
not always `input_tokens + output_tokens`: at lengths 1 and 1 the total
is strictly smaller than the sum. -/
theorem usage_total_is_ceil (promptLen outputLen k : Nat)
    (hk : promptLen + outputLen ≤ 4 * k) :
    (mkUsage promptLen outputLen).total_tokens =
      (promptLen + outputLen + 3) / 4 ∧
    promptLen + outputLen ≤ 4 * (mkUsage promptLen outputLen).total_tokens ∧
    (mkUsage promptLen outputLen).total_tokens ≤ k ∧
    (mkChatUsage promptLen outputLen).total_tokens =
      (mkUsage promptLen outputLen).total_tokens ∧
    (mkUsage 1 1).total_tokens = 1 ∧
    (mkUsage 1 1).input_tokens + (mkUsage 1 1).output_tokens = 2 ∧
    (mkUsage 1 1).total_tokens <
      (mkUsage 1 1).input_tokens + (mkUsage 1 1).output_tokens := by
  refine ⟨rfl, ?_, ?_, rfl, by decide, by decide, by decide⟩
  · simp only [mkUsage, ceilDiv4]
    omega
  · simp only [mkUsage, ceilDiv4]
    omega

theorem usage_total_is_ceil_witness :
    (1 : Nat) + 1 ≤ 4 * 1 ∧
    ((mkUsage 1 1).total_tokens = (1 + 1 + 3) / 4 ∧
    1 + 1 ≤ 4 * (mkUsage 1 1).total_tokens ∧
    (mkUsage 1 1).total_tokens ≤ 1 ∧
    (mkChatUsage 1 1).total_tokens = (mkUsage 1 1).total_tokens ∧
    (mkUsage 1 1).total_tokens = 1 ∧
    (mkUsage 1 1).input_tokens + (mkUsage 1 1).output_tokens = 2 ∧
    (mkUsage 1 1).total_tokens <
      (mkUsage 1 1).input_tokens + (mkUsage 1 1).output_tokens) :=
  ⟨by decide, usage_total_is_ceil 1 1 1 (by decide)⟩

/-- A stored key whose `expires_at` lies in the past (at any clock time
from 11 on) while `is_active` is still 1. -/
def expiredActiveKey : ApiKeyRecord :=
  { id := "key_1", name := "test", keyHash := hashKey "tok123"
    keyPrefix := "cdx_aaaa", scopes := ["responses", "chat"], isActive := true
    rateLimit := none, expiresAt := some 10, createdAt := 5
    lastUsedAt := none }

/-- C2, counterexample: the auth query filters only on `key_hash` and
`is_active`, never on `expires_at`, so a bearer token whose hash matches
an active-but-expired stored key is accepted — the claim's
"active and not expired" acceptance condition is not what the code
implements. -/
theorem authMiddleware_accepts_expired_key :
    authMiddleware "msk_ABC" [expiredActiveKey] (some "Bearer tok123") = .pass ∧
    jsReplaceFirst "Bearer tok123" "Bearer " ≠ "msk_ABC" ∧
    expiredActiveKey.isActive = true ∧
    expiredActiveKey.expiresAt = some 10 := by
  refine ⟨by decide, by decide, rfl, rfl⟩

/-- C2, amended (expiry dropped): with no master key configured every
request passes; with one configured, a request passes exactly when its
token (header minus the first `"Bearer "`) equals the master key or its
hash matches a stored key record that is active (expiry is never
checked), and every other request is rejected with a structured 401. -/
theorem authMiddleware_characterization (masterKey : String)
    (keys : List ApiKeyRecord) (header : Option String) :
    (strTruthy masterKey = false → authMiddleware masterKey keys header = .pass) ∧
    (strTruthy masterKey = true →
      ((authMiddleware masterKey keys header = .pass ↔
        (∃ h, header = some h ∧
          (jsReplaceFirst h "Bearer " = masterKey ∨
           ∃ r ∈ keys, r.keyHash = hashKey (jsReplaceFirst h "Bearer ") ∧
             r.isActive = true))) ∧
       (authMiddleware masterKey keys header = .pass ∨
        ∃ msg, authMiddleware masterKey keys header = .reject 401 msg))) := by
  constructor
  · intro hmk
    simp [authMiddleware, hmk]
  · intro hmk
    cases header with
    | none =>
      constructor
      · simp [authMiddleware, hmk]
      · exact Or.inr ⟨"Missing Authorization header", by simp [authMiddleware, hmk]⟩
    | some h =>
      cases htok : (jsReplaceFirst h "Bearer " == masterKey) with
      | true =>
        constructor
        · simp only [authMiddleware, hmk, Bool.not_true, Bool.false_eq_true,
            if_false, htok, if_true]
          exact iff_of_true trivial ⟨h, rfl, Or.inl (beq_iff_eq.mp htok)⟩
        · exact Or.inl (by simp [authMiddleware, hmk, htok])
      | false =>
        cases hf : findActiveKey keys (hashKey (jsReplaceFirst h "Bearer ")) with
        | some r =>
          have hmem := List.mem_of_find?_eq_some hf
          have hp := List.find?_some hf
          rw [Bool.and_eq_true, beq_iff_eq] at hp
          constructor
          · simp only [authMiddleware, hmk, Bool.not_true, Bool.false_eq_true,
              if_false, htok, hf]
            exact iff_of_true trivial ⟨h, rfl, Or.inr ⟨r, hmem, hp.1, hp.2⟩⟩
          · exact Or.inl (by simp [authMiddleware, hmk, htok, hf])
        | none =>
          have hnone := List.find?_eq_none.mp hf
          constructor
          · simp only [authMiddleware, hmk, Bool.not_true, Bool.false_eq_true,
              if_false, htok, hf]
            refine iff_of_false (by simp) ?_
            rintro ⟨h', hh', hcase | ⟨r, hr, hhash, hact⟩⟩
            · cases hh'
              exact absurd (beq_iff_eq.mpr hcase) (by simp [htok])
            · cases hh'
              exact absurd (by rw [Bool.and_eq_true, beq_iff_eq]; exact ⟨hhash, hact⟩)
                (hnone r hr)
          · exact Or.inr ⟨"Invalid API key", by simp [authMiddleware, hmk, htok, hf]⟩

theorem authMiddleware_characterization_witness :
    authMiddleware "" [] none = .pass ∧
    ((authMiddleware "msk" [] (some "Bearer msk") = .pass ↔
      (∃ h, (some "Bearer msk" : Option String) = some h ∧
        (jsReplaceFirst h "Bearer " = "msk" ∨
         ∃ r ∈ ([] : List ApiKeyRecord),
           r.keyHash = hashKey (jsReplaceFirst h "Bearer ") ∧
             r.isActive = true))) ∧
     (authMiddleware "msk" [] (some "Bearer msk") = .pass ∨
      ∃ msg, authMiddleware "msk" [] (some "Bearer msk") = .reject 401 msg)) :=
  ⟨(authMiddleware_characterization "" [] none).1 (by decide),
   (authMiddleware_characterization "msk" [] (some "Bearer msk")).2 (by decide)⟩

/-- C9, counterexample: when the configured master key itself contains
the substring `"Bearer "`, presenting it as the raw Authorization header
value is rejected — `header.replace('Bearer ', '')` mangles the token,
so the claim does not hold for every master key. -/
theorem authMiddleware_raw_master_header_rejected :
    strTruthy "Bearer abc" = true ∧
    authMiddleware "Bearer abc" [] (some "Bearer abc") =
      .reject 401 "Invalid API key" := by
  exact ⟨by decide, by decide⟩

/-- C9, amended: the middleware extracts the token by deleting only the
first occurrence of the substring `"Bearer "` from the header (so
`"Bearer Bearer x"` becomes `"Bearer x"`); consequently a request whose
Authorization header is the raw master key is accepted whenever the
master key does not itself contain `"Bearer "`. -/
theorem authMiddleware_raw_master_header_accepted (masterKey : String)
    (keys : List ApiKeyRecord) (hmk : strTruthy masterKey = true)
    (hnb : strContains masterKey "Bearer " = false) :
    jsReplaceFirst "Bearer Bearer x" "Bearer " = "Bearer x" ∧
    authMiddleware masterKey keys (some masterKey) = .pass := by
  refine ⟨by decide, ?_⟩
  have htok : jsReplaceFirst masterKey "Bearer " = masterKey :=
    jsReplaceFirst_of_not_contains _ _ hnb
  simp [authMiddleware, hmk, htok]

theorem authMiddleware_raw_master_header_accepted_witness :
    strTruthy "msk_ABC" = true ∧ strContains "msk_ABC" "Bearer " = false ∧
    (jsReplaceFirst "Bearer Bearer x" "Bearer " = "Bearer x" ∧
     authMiddleware "msk_ABC" [] (some "msk_ABC") = .pass) :=
  ⟨by decide, by decide,
   authMiddleware_raw_master_header_accepted "msk_ABC" [] (by decide) (by decide)⟩

/-- Searching an appended store skips a block in which the predicate
holds nowhere. -/
theorem find?_append_of_all_false {α : Type} (p : α → Bool) (l1 l2 : List α)
    (h : ∀ a ∈ l1, p a = false) : (l1 ++ l2).find? p = l2.find? p := by
  induction l1 with
  | nil => rfl
  | cons a t ih =>
    have ha := h a (List.mem_cons_self a t)
    simp only [List.cons_append, List.find?, ha]
    exact ih (fun b hb => h b (List.mem_cons_of_mem a hb))

/-- C5: issuing an API key returns the plaintext exactly once — the
issue payload carries `cdx_`-prefixed plaintext and its first 8
characters as `key_prefix` — while the stored record keeps only hash and
precursor, and every later read (by-id get or list) of that record shows
`prefix + "..."`, a string too short to contain the plaintext.
Hypotheses `h1`/`hfresh` record that the first uuid block is 32 hex
chars and that the generated record id is fresh in the store. -/
theorem issueApiKey_plaintext_only_once (name keyId r1 r2 : String)
    (scopes : List String) (expiresInDays rateLimit : Option Nat)
    (createdAt : Nat) (keys : List ApiKeyRecord)
    (h1 : r1.length = 32)
    (hfresh : ∀ r ∈ keys, (r.id == keyId) = false) :
    ∃ row : ApiKeyRecord,
      (issueApiKey name keyId r1 r2 scopes expiresInDays rateLimit createdAt
        keys).2 = keys ++ [row] ∧
      (issueApiKey name keyId r1 r2 scopes expiresInDays rateLimit createdAt
        keys).1.key = mkPlainKey r1 r2 ∧
      jsStartsWith (mkPlainKey r1 r2) "cdx_" = true ∧
      (issueApiKey name keyId r1 r2 scopes expiresInDays rateLimit createdAt
        keys).1.keyPrefix = jsTake (mkPlainKey r1 r2) 8 ∧
      row.keyPrefix = jsTake (mkPlainKey r1 r2) 8 ∧
      getApiKeyById (keys ++ [row]) keyId = some (keyReadPayload row) ∧
      (keyReadPayload row).key = row.keyPrefix ++ "..." ∧
      keyReadPayload row ∈ listApiKeys (keys ++ [row]) true ∧
      strContains ((keyReadPayload row).key) (mkPlainKey r1 r2) = false := by
  refine ⟨{ id := keyId, name := name, keyHash := hashKey (mkPlainKey r1 r2)
            keyPrefix := jsTake (mkPlainKey r1 r2) 8, scopes := scopes
            isActive := true, rateLimit := rateLimit
            expiresAt := expiresInDays.map (fun d => createdAt + d * 86400)
            createdAt := createdAt, lastUsedAt := none },
    rfl, rfl, ?_, rfl, rfl, ?_, rfl, ?_, ?_⟩
  · rw [jsStartsWith, mkPlainKey, data_append, data_append, List.append_assoc]
    exact List.isPrefixOf_iff_prefix.mpr (List.prefix_append _ _)
  · unfold getApiKeyById
    rw [find?_append_of_all_false _ _ _ hfresh]
    simp [List.find?]
  · unfold listApiKeys
    exact List.mem_map_of_mem keyReadPayload
      (List.mem_append_right keys (List.mem_singleton.mpr rfl))
  · apply strContains_eq_false_of_length_lt
    have hlen1 : r1.data.length = 32 := h1
    simp only [keyReadPayload, redactedKey, mkPlainKey, jsTake, data_append]
    simp only [List.length_append, List.length_take, List.length_cons,
      List.length_nil]
    omega

theorem issueApiKey_plaintext_only_once_witness :
    ("aaaabbbbccccddddeeeeffff00001111" : String).length = 32 ∧
    (∃ row : ApiKeyRecord,
      (issueApiKey "test" "key_9" "aaaabbbbccccddddeeeeffff00001111"
        "9999aaaabbbbccccddddeeeeffff0000" ["responses", "chat"] none none 777
        []).2 = [] ++ [row] ∧
      (issueApiKey "test" "key_9" "aaaabbbbccccddddeeeeffff00001111"
        "9999aaaabbbbccccddddeeeeffff0000" ["responses", "chat"] none none 777
        []).1.key = mkPlainKey "aaaabbbbccccddddeeeeffff00001111"
          "9999aaaabbbbccccddddeeeeffff0000" ∧
      jsStartsWith (mkPlainKey "aaaabbbbccccddddeeeeffff00001111"
        "9999aaaabbbbccccddddeeeeffff0000") "cdx_" = true ∧
      (issueApiKey "test" "key_9" "aaaabbbbccccddddeeeeffff00001111"
        "9999aaaabbbbccccddddeeeeffff0000" ["responses", "chat"] none none 777
        []).1.keyPrefix = jsTake (mkPlainKey "aaaabbbbccccddddeeeeffff00001111"
          "9999aaaabbbbccccddddeeeeffff0000") 8 ∧
      row.keyPrefix = jsTake (mkPlainKey "aaaabbbbccccddddeeeeffff00001111"
        "9999aaaabbbbccccddddeeeeffff0000") 8 ∧
      getApiKeyById ([] ++ [row]) "key_9" = some (keyReadPayload row) ∧
      (keyReadPayload row).key = row.keyPrefix ++ "..." ∧
      keyReadPayload row ∈ listApiKeys ([] ++ [row]) true ∧
      strContains ((keyReadPayload row).key)
        (mkPlainKey "aaaabbbbccccddddeeeeffff00001111"
          "9999aaaabbbbccccddddeeeeffff0000") = false) :=
  ⟨by decide,
   issueApiKey_plaintext_only_once "test" "key_9"
     "aaaabbbbccccddddeeeeffff00001111" "9999aaaabbbbccccddddeeeeffff0000"
     ["responses", "chat"] none none 777 [] (by decide)
     (fun r hr => absurd hr (List.not_mem_nil r))⟩

/-- C6, counterexample: two distinct unknown code-agent ids keep
themselves as the canonical CLI token, so unknown codex ids do not fall
back to any fixed default token — only the claude branch has the
`sonnet` default. -/
theorem getModelInfo_codex_no_default_token :
    isClaudeModel "my-model-a" = false ∧
    isClaudeModel "my-model-b" = false ∧
    codexModelEntry "my-model-a" = none ∧
    codexModelEntry "my-model-b" = none ∧
    (getModelInfo "my-model-a").cliModel = "my-model-a" ∧
    (getModelInfo "my-model-b").cliModel = "my-model-b" ∧
    (getModelInfo "my-model-a").cliModel ≠ (getModelInfo "my-model-b").cliModel := by
  refine ⟨by decide, by decide, by decide, by decide, by decide, by decide,
    by decide⟩

/-- C6, amended: `getModelInfo` is total and never errors; unknown
chat-family ids (and `getCliModel`) fall back to the default mid-tier
`"sonnet"` token with the id as display name, while code-agent ids are
always passed through as their own CLI token, only the display name
defaulting to the id. -/
theorem getModelInfo_total_with_fallbacks (m : String) :
    (getModelInfo m).id = m ∧
    (isClaudeModel m = true → claudeModelEntry m = none →
      (getModelInfo m).cliModel = "sonnet" ∧
      (getModelInfo m).displayName = m ∧ getCliModel m = "sonnet") ∧
    (isClaudeModel m = false →
      (getModelInfo m).cliModel = m ∧
      (codexModelEntry m = none → (getModelInfo m).displayName = m)) := by
  refine ⟨?_, ?_, ?_⟩
  · cases h : isClaudeModel m <;> simp [getModelInfo, getProvider, h]
  · intro hc hnone
    refine ⟨?_, ?_, ?_⟩ <;>
      simp [getModelInfo, getProvider, getCliModel, hc, hnone]
  · intro hc
    refine ⟨?_, fun hnone => ?_⟩ <;>
      simp [getModelInfo, getProvider, hc, *]

theorem getModelInfo_total_with_fallbacks_witness :
    (getModelInfo "claude-zz").id = "claude-zz" ∧
    ((getModelInfo "claude-zz").cliModel = "sonnet" ∧
     (getModelInfo "claude-zz").displayName = "claude-zz" ∧
     getCliModel "claude-zz" = "sonnet") ∧
    ((getModelInfo "gpt-zz").cliModel = "gpt-zz" ∧
     (getModelInfo "gpt-zz").displayName = "gpt-zz") :=
  ⟨(getModelInfo_total_with_fallbacks "claude-zz").1,
   (getModelInfo_total_with_fallbacks "claude-zz").2.1 (by decide) (by decide),
   ⟨((getModelInfo_total_with_fallbacks "gpt-zz").2.2 (by decide)).1,
    ((getModelInfo_total_with_fallbacks "gpt-zz").2.2 (by decide)).2 (by decide)⟩⟩

end CodexServer
